import Mathlib

/-!
Verification of the monitoring and persistence engine of the docking-station
management panel (src/main.py) against its natural-language specification.

The Python source is shallowly embedded: pure computations become Lean
functions, platform reads become explicit input parameters (an `Except Unit _`
models a read that may raise), and the worker loops become functions over
explicit traces of tick inputs.  Python `set`s of devices are `Finset`s; the
signal emissions performed while iterating a set difference are `Multiset`s
(Python set iteration order is unspecified).
-/

/-! ## Device tracker (USBMonitor, src/main.py lines 216-393) -/

/-- A USB signal emission: `usb_event.emit("add", ...)` / `emit("remove", ...)`. -/
inductive UsbAction (α : Type) where
  | add (d : α)
  | remove (d : α)
deriving DecidableEq

/-- The emissions performed by `USBMonitor.scan_devices` (lines 286-289): one
`add` per element of `current_devices - self.known_devices`. -/
def scanEmissions {α : Type} [DecidableEq α] (known current : Finset α) :
    Multiset (UsbAction α) :=
  (current \ known).val.map UsbAction.add

/-- `USBMonitor.scan_devices` (lines 258-292): emits one `add` per newly seen
device, then replaces `known_devices` with the current snapshot. -/
def scan_devices {α : Type} [DecidableEq α] (known current : Finset α) :
    Multiset (UsbAction α) × Finset α :=
  (scanEmissions known current, current)

/-- One iteration of `USBMonitor._windows_monitor_worker` (lines 315-326, the
same shape as the macOS worker): copy `previous_devices`, run `scan_devices`
(which emits the adds and updates `known_devices` to `current`), then emit one
`remove` per element of `previous_devices - self.known_devices`. -/
def monitorTick {α : Type} [DecidableEq α] (known current : Finset α) :
    Multiset (UsbAction α) × Finset α :=
  let s := scan_devices known current
  (s.1 + (known \ s.2).val.map UsbAction.remove, s.2)

/-- The poll-diff worker run over a trace of presence snapshots, returning the
per-tick emissions. -/
def runTicks {α : Type} [DecidableEq α] (known : Finset α) :
    List (Finset α) → List (Multiset (UsbAction α))
  | [] => []
  | c :: cs => (monitorTick known c).1 :: runTicks (monitorTick known c).2 cs

/-- `USBMonitor.__init__` (lines 222-237): the initial scan runs
`scan_devices` with the empty `known_devices` set. -/
def initialScan {α : Type} [DecidableEq α] (current : Finset α) :
    Multiset (UsbAction α) × Finset α :=
  scan_devices ∅ current

/-- Qt signal delivery: an emission reaches slots only if a slot is connected.
In `main` (lines 779-786) `usb_monitor.usb_event.connect(...)` runs only after
`USBMonitor()` has returned, so emissions performed inside `__init__` are
delivered with `connected = false`. -/
def deliverToSlots {α : Type} (connected : Bool) (evs : Multiset (UsbAction α)) :
    Multiset (UsbAction α) :=
  if connected then evs else 0

theorem usbAdd_injective {α : Type} : Function.Injective (UsbAction.add (α := α)) := by
  intro a b h
  cases h
  rfl

theorem usbRemove_injective {α : Type} : Function.Injective (UsbAction.remove (α := α)) := by
  intro a b h
  cases h
  rfl

theorem count_finset_val {α : Type} [DecidableEq α] (s : Finset α) (d : α) :
    s.val.count d = if d ∈ s then 1 else 0 := by
  by_cases h : d ∈ s
  · rw [if_pos h]
    exact Multiset.count_eq_one_of_mem s.nodup h
  · rw [if_neg h]
    exact Multiset.count_eq_zero_of_not_mem (by simpa using h)

/-- Claim C1: each poll-diff tick (scan_devices plus the worker's
removed-device pass) emits exactly one Added per device in `current − known`,
exactly one Removed per device in `known − current`, nothing for a device
present (or absent) in both snapshots, and leaves `known = current`; the
three-tick scenario with currents {A}, {A,B}, {B} from seeded known {A}
yields no event, then Added(B), then Removed(A). -/
theorem poll_diff_exact_events {α : Type} [DecidableEq α]
    (known current : Finset α) (d : α) :
    ((monitorTick known current).1.count (UsbAction.add d)
        = if d ∈ current \ known then 1 else 0)
    ∧ ((monitorTick known current).1.count (UsbAction.remove d)
        = if d ∈ known \ current then 1 else 0)
    ∧ (d ∈ known ∧ d ∈ current →
        (monitorTick known current).1.count (UsbAction.add d) = 0
        ∧ (monitorTick known current).1.count (UsbAction.remove d) = 0)
    ∧ (monitorTick known current).2 = current
    ∧ runTicks ({0} : Finset ℕ) [{0}, {0, 1}, {1}]
        = [0, {UsbAction.add 1}, {UsbAction.remove 0}] := by
  have hadd : (monitorTick known current).1.count (UsbAction.add d)
      = if d ∈ current \ known then 1 else 0 := by
    simp only [monitorTick, scan_devices, scanEmissions, Multiset.count_add]
    rw [Multiset.count_map_eq_count' _ _ usbAdd_injective]
    have hz : ((known \ current).val.map UsbAction.remove).count (UsbAction.add d) = 0 := by
      rw [Multiset.count_eq_zero]
      intro hmem
      rcases Multiset.mem_map.mp hmem with ⟨x, _, hx⟩
      exact UsbAction.noConfusion hx
    rw [hz, Nat.add_zero, count_finset_val]
  have hrem : (monitorTick known current).1.count (UsbAction.remove d)
      = if d ∈ known \ current then 1 else 0 := by
    simp only [monitorTick, scan_devices, scanEmissions, Multiset.count_add]
    rw [Multiset.count_map_eq_count' _ _ usbRemove_injective]
    have hz : ((current \ known).val.map UsbAction.add).count (UsbAction.remove d) = 0 := by
      rw [Multiset.count_eq_zero]
      intro hmem
      rcases Multiset.mem_map.mp hmem with ⟨x, _, hx⟩
      exact UsbAction.noConfusion hx
    rw [hz, Nat.zero_add, count_finset_val]
  refine ⟨hadd, hrem, ?_, rfl, by decide⟩
  intro hboth
  constructor
  · rw [hadd, if_neg]
    simp [Finset.mem_sdiff, hboth.1]
  · rw [hrem, if_neg]
    simp [Finset.mem_sdiff, hboth.2]

/-- Witness for `poll_diff_exact_events`: the unchanged device 7 present in
both snapshots {7} and {7, 3} generates no emission on that tick. -/
theorem poll_diff_exact_events_check :
    (monitorTick ({7} : Finset ℕ) {7, 3}).1.count (UsbAction.add 7) = 0
    ∧ (monitorTick ({7} : Finset ℕ) {7, 3}).1.count (UsbAction.remove 7) = 0 :=
  (poll_diff_exact_events ({7} : Finset ℕ) {7, 3} 7).2.2.1 ⟨by decide, by decide⟩

/-- Claim C2 counterexample: with one device `0` present at startup, the
initial scan performed by `__init__` (empty known set) does emit a device
event — `usb_event.emit("add", ...)` runs once — so the construction-time
enumeration does not emit zero events at the tracker level. -/
theorem initial_scan_emits_cex :
    (initialScan ({0} : Finset ℕ)).1 = {UsbAction.add 0}
    ∧ (({UsbAction.add 0} : Multiset (UsbAction ℕ)) ≠ 0) := by
  constructor
  · decide
  · decide

/-- Claim C2 amended: the initial scan seeds the known set with the devices
present at startup and performs exactly one Added signal emission per present
device (so a non-empty startup set yields a non-zero number of emissions);
however, because `main` connects the `usb_event` signal only after the
constructor has returned, none of these emissions is delivered to any slot,
so zero device events are persisted or shown. -/
theorem initial_scan_amended {α : Type} [DecidableEq α] (current : Finset α) :
    (initialScan current).1 = current.val.map UsbAction.add
    ∧ Multiset.card (initialScan current).1 = current.card
    ∧ (initialScan current).2 = current
    ∧ deliverToSlots false (initialScan current).1 = 0 := by
  have h1 : (initialScan current).1 = current.val.map UsbAction.add := by
    simp [initialScan, scan_devices, scanEmissions]
  refine ⟨h1, ?_, rfl, rfl⟩
  rw [h1, Multiset.card_map]
  rfl

/-! ## Sensor reads (HardwareSensorPoller, src/main.py lines 395-524)

The Linux branch of `_get_cpu_temp` (lines 446-461) is the fallback chain the
spec describes: up to ten thermal-zone files, then `psutil.sensors_temperatures`,
then the simulated value `50.0 + 5.0 * random()`.  Crucially the whole chain sits
inside one `try`, whose `except` returns the fixed default `50.0`. -/

/-- Outcome of one thermal-zone file probe: the file is absent
(`os.path.exists` false), the open/read/parse raises, or it yields a value. -/
inductive ZoneRead where
  | missing
  | raises
  | value (t : ℚ)
deriving DecidableEq

/-- Result of the thermal-zone loop: some probe raised (control jumps to the
outer `except`), a positive reading was returned, or the loop fell through. -/
inductive ZoneScan where
  | errored
  | found (t : ℚ)
  | exhausted
deriving DecidableEq

/-- The `for thermal_zone in range(10)` loop of `_get_cpu_temp` (lines
448-454): skip absent files, return the first positive reading, propagate an
exception, and keep looping on a non-positive reading. -/
def scanZones : List ZoneRead → ZoneScan
  | [] => .exhausted
  | .missing :: rest => scanZones rest
  | .raises :: _ => .errored
  | .value t :: rest => if 0 < t then .found t else scanZones rest

/-- The `psutil.sensors_temperatures()` fallback (lines 457-461): iterate the
dict values, returning `entries[0].current` of the first non-empty entry list. -/
def psutilFirst : List (List ℚ) → Option ℚ
  | [] => none
  | [] :: rest => psutilFirst rest
  | (t :: _) :: _ => some t

/-- `HardwareSensorPoller._get_cpu_temp` on Linux (lines 436-478): thermal
zones, then `psutil` (which may itself raise), then the simulated fallback
`sim`; any exception anywhere lands in the single outer `except`, which
returns the fixed default `50.0`. -/
def getCpuTempLinux (zones : List ZoneRead)
    (sensors : Except Unit (List (List ℚ))) (sim : ℚ) : ℚ :=
  match scanZones zones with
  | .errored => 50
  | .found t => t
  | .exhausted =>
    match sensors with
    | .error _ => 50
    | .ok entries =>
      match psutilFirst entries with
      | some t => t
      | none => sim

/-- Claim C3 counterexample: the primary source (first thermal zone) raises
and the fallback source (`psutil`) would return 42.0, yet `_get_cpu_temp`
returns the fixed default 50.0, not 42.0 — the single outer `except` aborts
the chain instead of proceeding to the next source. -/
theorem cpu_temp_chain_cex :
    getCpuTempLinux [ZoneRead.raises] (Except.ok [[42]]) 52 = 50
    ∧ (50 : ℚ) ≠ 42 := by
  constructor
  · rfl
  · norm_num

/-- Claim C3 amended: an exception raised by any source in the chain is not
swallowed per-source: it jumps to the single outer `except`, which returns the
fixed default 50.0 without trying later sources.  The chain proceeds to the
next source only past exception-free non-yields (absent file, non-positive
reading, empty sensor map); when the primary fails without raising and the
fallback returns 42.0 the tick's value is 42.0, and only an exception-free
exhaustion of the whole chain reaches the simulated fallback. -/
theorem cpu_temp_chain_amended (zones rest : List ZoneRead)
    (sensors : Except Unit (List (List ℚ))) (sim t : ℚ) :
    (getCpuTempLinux (ZoneRead.raises :: rest) sensors sim = 50)
    ∧ (scanZones zones = ZoneScan.errored → getCpuTempLinux zones sensors sim = 50)
    ∧ (scanZones zones = ZoneScan.exhausted → sensors = Except.error () →
        getCpuTempLinux zones sensors sim = 50)
    ∧ (scanZones zones = ZoneScan.exhausted →
        getCpuTempLinux zones (Except.ok [[t]]) sim = t)
    ∧ (scanZones zones = ZoneScan.exhausted →
        getCpuTempLinux zones (Except.ok []) sim = sim)
    ∧ getCpuTempLinux [ZoneRead.missing] (Except.ok [[42]]) sim = 42 := by
  refine ⟨rfl, ?_, ?_, ?_, ?_, rfl⟩
  · intro h
    simp [getCpuTempLinux, h]
  · intro h hs
    simp [getCpuTempLinux, h, hs]
  · intro h
    simp [getCpuTempLinux, h, psutilFirst]
  · intro h
    simp [getCpuTempLinux, h, psutilFirst]

/-- Witness for `cpu_temp_chain_amended`: with both zone files absent and a
raising `psutil`, the tick reports the fixed default 50.0. -/
theorem cpu_temp_chain_amended_check :
    getCpuTempLinux [ZoneRead.missing, ZoneRead.missing] (Except.error ()) 53 = 50 :=
  (cpu_temp_chain_amended [ZoneRead.missing, ZoneRead.missing] []
    (Except.error ()) 53 0).2.2.1 rfl rfl

/-- Python `int()` conversion of a float/rational: truncation toward zero. -/
def truncToZero (q : ℚ) : ℤ :=
  if 0 ≤ q then ⌊q⌋ else ⌈q⌉

/-- The health ladder of `_get_battery_info` (lines 503-510). -/
def batteryHealthOf (level : ℤ) : String :=
  if 80 ≤ level then "Good"
  else if 50 ≤ level then "Fair"
  else if 20 ≤ level then "Poor"
  else "Critical"

/-- `HardwareSensorPoller._get_battery_info` (lines 495-518): the
`psutil.sensors_battery()` read either raises (`.error`), reports no battery
(`.ok none`), or yields the raw percentage (`.ok (some p)`). -/
def getBatteryInfo (reading : Except Unit (Option ℚ)) : ℤ × String :=
  match reading with
  | .error _ => (0, "Unknown")
  | .ok none => (0, "No Battery")
  | .ok (some p) => (truncToZero p, batteryHealthOf (truncToZero p))

/-- Claim C4: `_get_battery_info` is a total deterministic function of the
battery reading; with a battery present the returned health is Good iff
level ≥ 80, Fair iff 50 ≤ level < 80, Poor iff 20 ≤ level < 50, Critical iff
level < 20; with no battery it reports level 0 and the no-battery sentinel;
and a raising read reports level 0 and health Unknown (the exception is
caught, never propagated). -/
theorem battery_info_total (p : ℚ) :
    ((getBatteryInfo (Except.ok (some p))).2 = "Good"
        ↔ 80 ≤ (getBatteryInfo (Except.ok (some p))).1)
    ∧ ((getBatteryInfo (Except.ok (some p))).2 = "Fair"
        ↔ 50 ≤ (getBatteryInfo (Except.ok (some p))).1
          ∧ (getBatteryInfo (Except.ok (some p))).1 < 80)
    ∧ ((getBatteryInfo (Except.ok (some p))).2 = "Poor"
        ↔ 20 ≤ (getBatteryInfo (Except.ok (some p))).1
          ∧ (getBatteryInfo (Except.ok (some p))).1 < 50)
    ∧ ((getBatteryInfo (Except.ok (some p))).2 = "Critical"
        ↔ (getBatteryInfo (Except.ok (some p))).1 < 20)
    ∧ getBatteryInfo (Except.ok none) = (0, "No Battery")
    ∧ getBatteryInfo (Except.error ()) = (0, "Unknown") := by
  have hlv : (getBatteryInfo (Except.ok (some p))).1 = truncToZero p := rfl
  have hh : (getBatteryInfo (Except.ok (some p))).2
      = batteryHealthOf (truncToZero p) := rfl
  rw [hlv, hh]
  unfold batteryHealthOf
  refine ⟨?_, ?_, ?_, ?_, rfl, rfl⟩ <;> split_ifs <;>
    simp_all <;> omega

/-- Claim C10 counterexample: the raw reading 100.5 is above 100, yet
`int(battery.percent)` reports level 100 — neither above 100 nor unchanged —
so "any raw reading above 100 would be reported above 100 unchanged" fails. -/
theorem battery_trunc_cex :
    (100 : ℚ) < 201 / 2
    ∧ (getBatteryInfo (Except.ok (some (201 / 2)))).1 = 100
    ∧ ¬ (100 : ℤ) > 100 := by
  have hf : ⌊(201 : ℚ) / 2⌋ = 100 := by
    rw [Int.floor_eq_iff]
    constructor <;> norm_num
  refine ⟨by norm_num, ?_, by omega⟩
  show truncToZero (201 / 2) = 100
  rw [truncToZero, if_pos (by norm_num), hf]

/-- Claim C10 amended: the reported battery level is the raw percentage
truncated toward zero by `int()` with no clamping to 0-100: 79.9 yields level
79 and hence health Fair (not Good); any raw reading of at least 101 is
reported above 100; and any integral raw reading — above 100 included — is
reported unchanged. -/
theorem battery_trunc_amended (q : ℚ) (n : ℤ) :
    getBatteryInfo (Except.ok (some (799 / 10))) = (79, "Fair")
    ∧ (0 ≤ q → (getBatteryInfo (Except.ok (some q))).1 = ⌊q⌋)
    ∧ (101 ≤ q → 100 < (getBatteryInfo (Except.ok (some q))).1)
    ∧ (getBatteryInfo (Except.ok (some (n : ℚ)))).1 = n := by
  have htr : ∀ r : ℚ, 0 ≤ r → truncToZero r = ⌊r⌋ := by
    intro r hr
    rw [truncToZero, if_pos hr]
  refine ⟨?_, fun hq => htr q hq, ?_, ?_⟩
  · have hf : ⌊(799 : ℚ) / 10⌋ = 79 := by
      rw [Int.floor_eq_iff]
      constructor <;> norm_num
    have hl : (getBatteryInfo (Except.ok (some (799 / 10)))).1 = 79 := by
      show truncToZero (799 / 10) = 79
      rw [htr _ (by norm_num), hf]
    have : getBatteryInfo (Except.ok (some (799 / 10)))
        = (truncToZero (799 / 10), batteryHealthOf (truncToZero (799 / 10))) := rfl
    rw [this]
    have h79 : truncToZero (799 / 10 : ℚ) = 79 := hl
    rw [h79]
    norm_num [batteryHealthOf]
  · intro hq
    have h0 : (0 : ℚ) ≤ q := le_trans (by norm_num) hq
    show (100 : ℤ) < truncToZero q
    rw [htr q h0]
    have : (101 : ℤ) ≤ ⌊q⌋ := Int.le_floor.mpr (by exact_mod_cast hq)
    omega
  · show truncToZero (n : ℚ) = n
    by_cases hn : 0 ≤ (n : ℚ)
    · rw [truncToZero, if_pos hn, Int.floor_intCast]
    · rw [truncToZero, if_neg hn, Int.ceil_intCast]

/-- Witness for `battery_trunc_amended`: a raw reading of 150 is reported as
level 150, above 100 and unchanged. -/
theorem battery_trunc_amended_check :
    100 < (getBatteryInfo (Except.ok (some (150 : ℚ)))).1
    ∧ (getBatteryInfo (Except.ok (some ((150 : ℤ) : ℚ)))).1 = 150 :=
  ⟨(battery_trunc_amended 150 150).2.2.1 (by norm_num),
   (battery_trunc_amended 150 150).2.2.2⟩

/-- `HardwareSensorPoller._get_gpu_temp` (lines 480-493): 0.0 when GPUtil is
unavailable; otherwise `GPUtil.getGPUs()` may raise (caught, 0.0), be empty
(0.0), or yield a first GPU whose temperature is returned. -/
def getGpuTemp (hasGpu : Bool) (gpus : Except Unit (List ℚ)) : ℚ :=
  if hasGpu = false then 0
  else
    match gpus with
    | .error _ => 0
    | .ok [] => 0
    | .ok (t :: _) => t

/-- `DashboardWidget.update_sensor_data` on the GPU reading (lines 664-676):
`if gpu_temp > 0` show the value, `else` show "N/A" (modelled as `none`). -/
def gpuDisplay (t : ℚ) : Option ℚ :=
  if 0 < t then some t else none

/-- Claim C6 counterexample: a genuine 0°C reading from a present GPU yields
exactly the same emitted value (0.0) and the same consumer rendering (N/A) as
the GPU-absent case — no `hasGpu` flag accompanies the sample, so the consumer
does conflate the not-applicable sentinel with a real 0°C reading. -/
theorem gpu_sentinel_cex :
    getGpuTemp true (Except.ok [0]) = 0
    ∧ getGpuTemp false (Except.ok []) = 0
    ∧ gpuDisplay (getGpuTemp true (Except.ok [0]))
        = gpuDisplay (getGpuTemp false (Except.ok [])) := by
  refine ⟨rfl, rfl, rfl⟩

/-- Claim C6 amended: when GPU enumeration is unavailable, raises, or reports
no GPUs, the temperature is reported as the bare sentinel 0.0 with no
accompanying `hasGpu` flag; the consumer renders N/A exactly when the reading
is ≤ 0, so a genuine 0°C (or sub-zero) reading from a present GPU is rendered
identically to the no-GPU case. -/
theorem gpu_sentinel_amended (res : Except Unit (List ℚ)) (t : ℚ) (rest : List ℚ) :
    getGpuTemp false res = 0
    ∧ getGpuTemp true (Except.error ()) = 0
    ∧ getGpuTemp true (Except.ok []) = 0
    ∧ getGpuTemp true (Except.ok (t :: rest)) = t
    ∧ (gpuDisplay t = none ↔ t ≤ 0)
    ∧ gpuDisplay (getGpuTemp true (Except.ok [0]))
        = gpuDisplay (getGpuTemp false (Except.ok [])) := by
  refine ⟨rfl, rfl, rfl, rfl, ?_, rfl⟩
  unfold gpuDisplay
  split_ifs with h
  · simp
    linarith
  · simp
    linarith

/-! ## Time-series store (Database, src/main.py lines 64-214)

Rows carry ISO-8601 timestamp strings with microsecond resolution and SQLite
compares and orders them as TEXT, i.e. lexicographically.  A zero-padded ISO
datetime string compares lexicographically exactly like the component sequence
`[day, timeOfDay]`, and a date-only string `[day]` is a strict prefix of (hence
strictly below) every datetime string of the same day.  We embed timestamps as
such component sequences. -/

/-- Microseconds in a day; `datetime.time.max` is the last one. -/
def todCount : ℕ := 86400000000

/-- One persisted row: its day, its time of day (microseconds), and a
surrogate for the remaining columns. -/
structure DbRecord where
  day : ℕ
  tod : Fin todCount
  data : ℕ
deriving DecidableEq

/-- The lexicographic sort key of a row's ISO timestamp string. -/
def tsKey (r : DbRecord) : List ℕ := [r.day, r.tod.val]

/-- Lexicographic order on ISO-8601 component sequences, mirroring SQLite's
TEXT comparison of zero-padded ISO strings (a strict prefix sorts first). -/
def strLe : List ℕ → List ℕ → Bool
  | [], _ => true
  | _ :: _, [] => false
  | a :: as, b :: bs => decide (a < b) || (decide (a = b) && strLe as bs)

theorem strLe_total : ∀ x y : List ℕ, strLe x y = true ∨ strLe y x = true := by
  intro x
  induction x with
  | nil => intro y; left; rfl
  | cons a as ih =>
    intro y
    cases y with
    | nil => right; rfl
    | cons b bs =>
      rcases Nat.lt_trichotomy a b with h | h | h
      · left
        simp [strLe, h]
      · subst h
        rcases ih bs with h2 | h2
        · left
          simp [strLe, h2]
        · right
          simp [strLe, h2]
      · right
        simp [strLe, h]

theorem strLe_trans : ∀ x y z : List ℕ,
    strLe x y = true → strLe y z = true → strLe x z = true := by
  intro x
  induction x with
  | nil => intro y z _ _; rfl
  | cons a as ih =>
    intro y z hxy hyz
    cases y with
    | nil => exact absurd hxy (by simp [strLe])
    | cons b bs =>
      cases z with
      | nil => exact absurd hyz (by simp [strLe])
      | cons c cs =>
        simp only [strLe, Bool.or_eq_true, Bool.and_eq_true, decide_eq_true_eq] at hxy hyz ⊢
        rcases hxy with h1 | ⟨h1, h1r⟩
        · rcases hyz with h2 | ⟨h2, _⟩
          · left; omega
          · left; omega
        · rcases hyz with h2 | ⟨h2, h2r⟩
          · left; omega
          · right
            exact ⟨by omega, ih bs cs h1r h2r⟩

/-- `ORDER BY timestamp DESC` (get_usb_events, get_latest_usb_events). -/
def newestFirst (a b : DbRecord) : Prop :=
  strLe (tsKey b) (tsKey a) = true

/-- `ORDER BY timestamp ASC` (get_hw_stats). -/
def oldestFirst (a b : DbRecord) : Prop :=
  strLe (tsKey a) (tsKey b) = true

instance : DecidableRel newestFirst := fun a b =>
  instDecidableEqBool (strLe (tsKey b) (tsKey a)) true

instance : DecidableRel oldestFirst := fun a b =>
  instDecidableEqBool (strLe (tsKey a) (tsKey b)) true

instance : IsTotal DbRecord newestFirst :=
  ⟨fun a b => (strLe_total (tsKey a) (tsKey b)).symm⟩

instance : IsTotal DbRecord oldestFirst :=
  ⟨fun a b => strLe_total (tsKey a) (tsKey b)⟩

instance : IsTrans DbRecord newestFirst :=
  ⟨fun _ _ _ h1 h2 => strLe_trans _ _ _ h2 h1⟩

instance : IsTrans DbRecord oldestFirst :=
  ⟨fun _ _ _ h1 h2 => strLe_trans _ _ _ h1 h2⟩

/-- The `timestamp >= ?` conjunct with parameter `start_date.isoformat()`
(a date-only string, lines 148-150). -/
def startOk (s : Option ℕ) (r : DbRecord) : Bool :=
  match s with
  | none => true
  | some d => strLe [d] (tsKey r)

/-- The `timestamp <= ?` conjunct with parameter
`datetime.combine(end_date, time.max).isoformat()` (lines 153-156). -/
def endOk (e : Option ℕ) (r : DbRecord) : Bool :=
  match e with
  | none => true
  | some d => strLe (tsKey r) [d, todCount - 1]

/-- The assembled WHERE clause of both range queries. -/
def inRange (s e : Option ℕ) (r : DbRecord) : Bool :=
  startOk s r && endOk e r

/-- `Database.get_usb_events` (lines 138-164): filter by the optional date
range, newest first. -/
def get_usb_events (db : List DbRecord) (s e : Option ℕ) : List DbRecord :=
  List.insertionSort newestFirst (db.filter (inRange s e))

/-- `Database.get_hw_stats` (lines 166-192): filter by the optional date
range, oldest first. -/
def get_hw_stats (db : List DbRecord) (s e : Option ℕ) : List DbRecord :=
  List.insertionSort oldestFirst (db.filter (inRange s e))

theorem startOk_some (d : ℕ) (r : DbRecord) :
    startOk (some d) r = true ↔ d ≤ r.day := by
  simp only [startOk, tsKey, strLe, Bool.or_eq_true, Bool.and_eq_true,
    decide_eq_true_eq]
  constructor
  · rintro (h | ⟨h, _⟩) <;> omega
  · intro h
    rcases Nat.lt_or_ge d r.day with h2 | h2
    · left; exact h2
    · right; exact ⟨by omega, trivial⟩

theorem endOk_some (d : ℕ) (r : DbRecord) :
    endOk (some d) r = true ↔ r.day ≤ d := by
  have htod : r.tod.val < todCount := r.tod.isLt
  have hc : todCount = 86400000000 := rfl
  simp only [endOk, tsKey, strLe, Bool.or_eq_true, Bool.and_eq_true,
    decide_eq_true_eq]
  constructor
  · rintro (h | ⟨h, _⟩) <;> omega
  · intro h
    rcases Nat.lt_or_ge r.day d with h2 | h2
    · left; exact h2
    · right
      refine ⟨by omega, ?_⟩
      rcases Nat.lt_or_ge r.tod.val (todCount - 1) with h3 | h3
      · left; exact h3
      · right; exact ⟨by omega, trivial⟩

theorem inRange_iff (s e : Option ℕ) (r : DbRecord) :
    inRange s e r = true
      ↔ (∀ a, s = some a → a ≤ r.day) ∧ (∀ b, e = some b → r.day ≤ b) := by
  have hs : startOk s r = true ↔ (∀ a, s = some a → a ≤ r.day) := by
    cases s with
    | none => simp [startOk]
    | some a => simp [startOk_some]
  have he : endOk e r = true ↔ (∀ b, e = some b → r.day ≤ b) := by
    cases e with
    | none => simp [endOk]
    | some b => simp [endOk_some]
  simp [inRange, Bool.and_eq_true, hs, he]

theorem mem_get_usb_events (db : List DbRecord) (s e : Option ℕ) (r : DbRecord) :
    r ∈ get_usb_events db s e
      ↔ r ∈ db ∧ (∀ a, s = some a → a ≤ r.day) ∧ (∀ b, e = some b → r.day ≤ b) := by
  rw [get_usb_events, List.mem_insertionSort, List.mem_filter, inRange_iff]

theorem mem_get_hw_stats (db : List DbRecord) (s e : Option ℕ) (r : DbRecord) :
    r ∈ get_hw_stats db s e
      ↔ r ∈ db ∧ (∀ a, s = some a → a ≤ r.day) ∧ (∀ b, e = some b → r.day ≤ b) := by
  rw [get_hw_stats, List.mem_insertionSort, List.mem_filter, inRange_iff]

/-- Claim C5: `get_usb_events` returns records newest-first and
`get_hw_stats` oldest-first; a record is included iff its timestamp meets
every provided bound, inclusively at both ends; no bounds returns all records;
and a range containing no records yields the empty sequence. -/
theorem range_query_semantics (db : List DbRecord) (s e : Option ℕ) :
    (∀ r, r ∈ get_usb_events db s e
        ↔ r ∈ db ∧ (∀ a, s = some a → a ≤ r.day) ∧ (∀ b, e = some b → r.day ≤ b))
    ∧ List.Sorted newestFirst (get_usb_events db s e)
    ∧ (∀ r, r ∈ get_hw_stats db s e
        ↔ r ∈ db ∧ (∀ a, s = some a → a ≤ r.day) ∧ (∀ b, e = some b → r.day ≤ b))
    ∧ List.Sorted oldestFirst (get_hw_stats db s e)
    ∧ (get_usb_events db none none).Perm db
    ∧ (get_hw_stats db none none).Perm db
    ∧ ((∀ r ∈ db, ¬((∀ a, s = some a → a ≤ r.day) ∧ (∀ b, e = some b → r.day ≤ b))) →
        get_usb_events db s e = [] ∧ get_hw_stats db s e = []) := by
  have hall : db.filter (inRange none none) = db :=
    List.filter_eq_self.mpr (fun a _ => rfl)
  refine ⟨mem_get_usb_events db s e, ?_, mem_get_hw_stats db s e, ?_, ?_, ?_, ?_⟩
  · exact List.sorted_insertionSort newestFirst _
  · exact List.sorted_insertionSort oldestFirst _
  · rw [get_usb_events, hall]
    exact List.perm_insertionSort newestFirst db
  · rw [get_hw_stats, hall]
    exact List.perm_insertionSort oldestFirst db
  · intro hnone
    have hnil : db.filter (inRange s e) = [] := by
      rw [List.filter_eq_nil_iff]
      intro r hr
      rw [Bool.not_eq_true]
      rcases Bool.eq_false_or_eq_true (inRange s e r) with h | h
      · exact absurd ((inRange_iff s e r).mp h) (hnone r hr)
      · exact h
    constructor
    · rw [get_usb_events, hnil]; rfl
    · rw [get_hw_stats, hnil]; rfl

/-- Witness for `range_query_semantics`: the store holding the single record
of day 5 returns it for the inclusive range [5, 5] of `get_hw_stats`, and
returns the empty sequence for a device-event query starting at day 6. -/
theorem range_query_semantics_check :
    (⟨5, ⟨0, by decide⟩, 0⟩ : DbRecord)
        ∈ get_hw_stats [⟨5, ⟨0, by decide⟩, 0⟩] (some 5) (some 5)
    ∧ get_usb_events [⟨5, ⟨0, by decide⟩, 0⟩] (some 6) none = [] := by
  constructor
  · exact ((range_query_semantics [⟨5, ⟨0, by decide⟩, 0⟩] (some 5) (some 5)).2.2.1
      ⟨5, ⟨0, by decide⟩, 0⟩).mpr
      ⟨List.mem_singleton.mpr rfl,
        by rintro a ha; cases ha; exact le_refl 5,
        by rintro b hb; cases hb; exact le_refl 5⟩
  · exact ((range_query_semantics [⟨5, ⟨0, by decide⟩, 0⟩] (some 6) none).2.2.2.2.2.2
      (by
        rintro r hr
        rcases List.mem_singleton.mp hr with rfl
        rintro ⟨h1, -⟩
        exact absurd (h1 6 rfl) (by decide))).1

/-! ## Service wiring (main, src/main.py lines 770-812) -/

/-- `Database.get_latest_usb_events` (lines 194-203):
`ORDER BY timestamp DESC LIMIT ?`. -/
def get_latest_usb_events (db : List DbRecord) (limit : ℕ) : List DbRecord :=
  (List.insertionSort newestFirst db).take limit

/-- The two append-only tables owned by `Database`. -/
structure ServiceState where
  usb : List DbRecord
  hw : List DbRecord

/-- The `usb_event` slot connected in `main` (lines 783-786): the lambda's
tuple evaluates left to right, so `db.add_usb_event(...)` completes before
`dashboard.update_usb_events(db.get_latest_usb_events())` runs on the updated
store.  Returns the post-handler state and the notification payload. -/
def onUsbEvent (st : ServiceState) (r : DbRecord) : ServiceState × List DbRecord :=
  let st2 : ServiceState := { st with usb := st.usb ++ [r] }
  (st2, get_latest_usb_events st2.usb 5)

/-- The `sensor_data` slot connected in `main` (lines 787-790):
`db.add_hw_stats(...)` runs first, then `dashboard.update_sensor_data`
receives the same sample. -/
def onSensorData (st : ServiceState) (r : DbRecord) : ServiceState × DbRecord :=
  let st2 : ServiceState := { st with hw := st.hw ++ [r] }
  (st2, r)

/-- Claim C7: for every device event and sensor sample handled by the wiring,
the record is appended to the store before the observer is notified: the
event notification payload is computed from the post-append store and every
record in it is retrievable through the store's query interface, the freshly
appended event itself is retrievable at notification time, and the sensor
sample forwarded to the observer is already retrievable. -/
theorem persist_then_notify (st : ServiceState) (r : DbRecord) :
    (onUsbEvent st r).1.usb = st.usb ++ [r]
    ∧ r ∈ get_usb_events (onUsbEvent st r).1.usb none none
    ∧ (∀ x ∈ (onUsbEvent st r).2, x ∈ get_usb_events (onUsbEvent st r).1.usb none none)
    ∧ (onSensorData st r).1.hw = st.hw ++ [r]
    ∧ (onSensorData st r).2 = r
    ∧ r ∈ get_hw_stats (onSensorData st r).1.hw none none := by
  have hmem : ∀ x ∈ st.usb ++ [r], x ∈ get_usb_events (st.usb ++ [r]) none none := by
    intro x hx
    exact (mem_get_usb_events (st.usb ++ [r]) none none x).mpr
      ⟨hx, by rintro a ⟨⟩, by rintro b ⟨⟩⟩
  refine ⟨rfl, ?_, ?_, rfl, rfl, ?_⟩
  · exact hmem r (List.mem_append.mpr (Or.inr (List.mem_singleton.mpr rfl)))
  · intro x hx
    have : x ∈ st.usb ++ [r] := by
      have hx2 : x ∈ List.insertionSort newestFirst (st.usb ++ [r]) :=
        List.mem_of_mem_take hx
      exact (List.mem_insertionSort newestFirst).mp hx2
    exact hmem x this
  · exact (mem_get_hw_stats (st.hw ++ [r]) none none r).mpr
      ⟨List.mem_append.mpr (Or.inr (List.mem_singleton.mpr rfl)),
        by rintro a ⟨⟩, by rintro b ⟨⟩⟩

/-- Witness for `persist_then_notify`: from the empty store, handling the
day-3 record notifies observers only after it is retrievable. -/
theorem persist_then_notify_check :
    (⟨3, ⟨0, by decide⟩, 0⟩ : DbRecord)
      ∈ get_usb_events (onUsbEvent ⟨[], []⟩ ⟨3, ⟨0, by decide⟩, 0⟩).1.usb none none :=
  (persist_then_notify ⟨[], []⟩ ⟨3, ⟨0, by decide⟩, 0⟩).2.1

/-! ## Sensor polling loop (HardwareSensorPoller._polling_worker, lines 412-434) -/

/-- `POLLING_INTERVAL = 5  # seconds` (line 61), the default
`self.polling_interval`. -/
def POLLING_INTERVAL : ℕ := 5

/-- The platform reads consumed by one tick of the polling worker. -/
structure SensorInputs where
  zones : List ZoneRead
  sensors : Except Unit (List (List ℚ))
  sim : ℚ
  gpuAvailable : Bool
  gpus : Except Unit (List ℚ)
  battery : Except Unit (Option ℚ)

/-- One composite sample, as carried by the `sensor_data` signal. -/
structure SensorSample where
  cpu : ℚ
  gpu : ℚ
  level : ℤ
  health : String
deriving DecidableEq

/-- The sample assembled inside the per-tick `try` (lines 416-427) from the
three read helpers. -/
def mkSample (i : SensorInputs) : SensorSample :=
  { cpu := getCpuTempLinux i.zones i.sensors i.sim
    gpu := getGpuTemp i.gpuAvailable i.gpus
    level := (getBatteryInfo i.battery).1
    health := (getBatteryInfo i.battery).2 }

/-- One iteration of `_polling_worker`: a tick whose reads complete without an
unhandled exception (`some i`) emits one sample and then sleeps
`self.polling_interval`; a tick whose `try` region raises (`none`) emits
nothing and sleeps `self.polling_interval * 2` (line 434). -/
def pollTick (interval : ℕ) (t : Option SensorInputs) : List SensorSample × ℕ :=
  match t with
  | some i => ([mkSample i], interval)
  | none => ([], interval * 2)

/-- The polling loop over a trace of tick inputs, returning each tick's
emissions and the wait that follows it. -/
def pollingWorker (interval : ℕ) (ticks : List (Option SensorInputs)) :
    List (List SensorSample × ℕ) :=
  ticks.map (pollTick interval)

/-- Claim C8: in the sensor-polling loop a tick that completes without an
unhandled exception emits exactly one composite sample and is followed by a
wait of the normal interval (default 5); a tick whose per-tick try region
raises emits no sample and is followed by a wait of exactly twice the
interval; the next successful tick again waits the normal interval. -/
theorem polling_backoff (interval : ℕ) (pre post : List (Option SensorInputs))
    (i : SensorInputs) :
    pollingWorker interval (pre ++ some i :: post)
        = pollingWorker interval pre
          ++ ([mkSample i], interval) :: pollingWorker interval post
    ∧ pollingWorker interval (pre ++ none :: post)
        = pollingWorker interval pre
          ++ ([], 2 * interval) :: pollingWorker interval post
    ∧ (pollTick interval (some i)).1.length = 1
    ∧ (pollTick interval none).1.length = 0
    ∧ pollingWorker interval [none, some i]
        = [([], 2 * interval), ([mkSample i], interval)]
    ∧ POLLING_INTERVAL = 5 := by
  refine ⟨?_, ?_, rfl, rfl, ?_, rfl⟩
  · rw [pollingWorker, List.map_append, List.map_cons]
    rfl
  · rw [pollingWorker, List.map_append, List.map_cons]
    have h2 : interval * 2 = 2 * interval := Nat.mul_comm interval 2
    rw [pollingWorker, pollingWorker]
    simp [pollTick, h2]
  · simp [pollingWorker, pollTick, Nat.mul_comm interval 2]

/-! ## Windows enumeration (USBMonitor.scan_devices, lines 262-273)

`vendor = device_id.split("VID_")[1].split("&")[0]` — Python `str.split` on a
multi-character separator cuts at every non-overlapping occurrence, so element
`[1]` is the text between the first and second occurrence of `"VID_"` (the
rest of the string when there is only one). -/

/-- `leadsWith sep s`: `s` begins with `sep`. -/
def leadsWith : List Char → List Char → Bool
  | [], _ => true
  | _ :: _, [] => false
  | a :: as, b :: bs => a == b && leadsWith as bs

/-- Python's `sep in s` substring test. -/
def occursIn (sep : List Char) : List Char → Bool
  | [] => leadsWith sep []
  | c :: cs => leadsWith sep (c :: cs) || occursIn sep cs

/-- The suffix strictly after the first occurrence of `sep`. -/
def dropAfterFirst (sep : List Char) : List Char → List Char
  | [] => []
  | c :: cs =>
    if leadsWith sep (c :: cs) then (c :: cs).drop sep.length
    else dropAfterFirst sep cs

/-- The segment before the first occurrence of `sep` (all of the list when
`sep` does not occur); this is `split(sep)[0]`, and applied after
`dropAfterFirst` it is `split(sep)[1]`. -/
def takeToFirst (sep : List Char) : List Char → List Char
  | [] => []
  | c :: cs =>
    if leadsWith sep (c :: cs) then []
    else c :: takeToFirst sep cs

def vidSep : List Char := ['V', 'I', 'D', '_']

def ampSep : List Char := ['&']

/-- The vendor parse of the Windows branch (lines 268-270):
`"Unknown"` unless `"VID_" in device_id`, otherwise
`device_id.split("VID_")[1].split("&")[0]`. -/
def parseVendorWin (did : List Char) : List Char :=
  if occursIn vidSep did then
    takeToFirst ampSep (takeToFirst vidSep (dropAfterFirst vidSep did))
  else "Unknown".toList

/-- The claim's reading of the same parse: the substring of the DeviceID
strictly between `"VID_"` and the next `"&"`.  Stated from the claim's words
for comparison with `parseVendorWin`, which embeds the source. -/
def claimedVendorWin (did : List Char) : List Char :=
  if occursIn vidSep did then takeToFirst ampSep (dropAfterFirst vidSep did)
  else "Unknown".toList

/-- The 4-tuple added to `current_devices` on Windows (line 271). -/
structure WinDevice where
  deviceId : List Char
  vendor : List Char
  serial : List Char
  uuid : List Char
deriving DecidableEq

/-- `current_devices.add((device_id, vendor, "Unknown", "Unknown"))`. -/
def winScanDevice (did : List Char) : WinDevice :=
  ⟨did, parseVendorWin did, "Unknown".toList, "Unknown".toList⟩

/-- The Windows enumeration over the dependent DeviceIDs reported by WMI. -/
def windowsScan (ids : List (List Char)) : Finset WinDevice :=
  ids.foldr (fun i s => insert (winScanDevice i) s) ∅

theorem takeToFirst_of_not_occurs (sep : List Char) :
    ∀ l : List Char, occursIn sep l = false → takeToFirst sep l = l := by
  intro l
  induction l with
  | nil => intro _; rfl
  | cons c cs ih =>
    intro h
    rw [occursIn, Bool.or_eq_false_iff] at h
    rw [takeToFirst, if_neg (by rw [h.1]; exact Bool.false_ne_true), ih h.2]

theorem mem_windowsScan (ids : List (List Char)) (d : WinDevice) :
    d ∈ windowsScan ids ↔ ∃ i ∈ ids, d = winScanDevice i := by
  induction ids with
  | nil => simp [windowsScan]
  | cons i is ih =>
    have hstep : windowsScan (i :: is) = insert (winScanDevice i) (windowsScan is) := rfl
    rw [hstep, Finset.mem_insert, ih]
    constructor
    · rintro (h | ⟨j, hj, hd⟩)
      · exact ⟨i, List.mem_cons_self i is, h⟩
      · exact ⟨j, List.mem_cons_of_mem i hj, hd⟩
    · rintro ⟨j, hj, hd⟩
      rcases List.mem_cons.mp hj with rfl | hj2
      · exact Or.inl hd
      · exact Or.inr ⟨j, hj2, hd⟩

/-- Claim C9 counterexample: on DeviceID `"VID_AVID_B&C"` the code parses
vendor `"A"` — `split("VID_")[1]` stops at the second `"VID_"` — whereas the
substring strictly between `"VID_"` and the next `"&"` is `"AVID_B"`. -/
theorem vendor_parse_cex :
    parseVendorWin "VID_AVID_B&C".toList = "A".toList
    ∧ claimedVendorWin "VID_AVID_B&C".toList = "AVID_B".toList
    ∧ parseVendorWin "VID_AVID_B&C".toList ≠ claimedVendorWin "VID_AVID_B&C".toList := by
  refine ⟨by decide, by decide, by decide⟩

/-- Claim C9 amended: on the Windows path every device added to the known set
has serial and uuid equal to the literal `"Unknown"`; its vendor is
`"Unknown"` when `"VID_"` does not occur in the DeviceID, and otherwise is the
segment after the first `"VID_"` cut at the earlier of the next `"&"` and the
next `"VID_"` (Python `split("VID_")[1].split("&")[0]`), which equals the
substring between `"VID_"` and the next `"&"` whenever `"VID_"` occurs only
once; consequently the 4-tuple identity collapses to (DeviceID, parsed
vendor). -/
theorem vendor_parse_amended (ids : List (List Char)) (d d2 : WinDevice)
    (did : List Char) :
    (d ∈ windowsScan ids →
      d.serial = "Unknown".toList ∧ d.uuid = "Unknown".toList
      ∧ d.vendor = parseVendorWin d.deviceId)
    ∧ (occursIn vidSep did = false → parseVendorWin did = "Unknown".toList)
    ∧ (occursIn vidSep did = true →
        parseVendorWin did
          = takeToFirst ampSep (takeToFirst vidSep (dropAfterFirst vidSep did)))
    ∧ (occursIn vidSep (dropAfterFirst vidSep did) = false →
        parseVendorWin did = claimedVendorWin did)
    ∧ (d ∈ windowsScan ids → d2 ∈ windowsScan ids →
        (d = d2 ↔ d.deviceId = d2.deviceId ∧ d.vendor = d2.vendor)) := by
  have hfacts : ∀ x : WinDevice, x ∈ windowsScan ids →
      x.serial = "Unknown".toList ∧ x.uuid = "Unknown".toList
      ∧ x.vendor = parseVendorWin x.deviceId := by
    intro x hx
    rcases (mem_windowsScan ids x).mp hx with ⟨i, _, rfl⟩
    exact ⟨rfl, rfl, rfl⟩
  refine ⟨hfacts d, ?_, ?_, ?_, ?_⟩
  · intro h
    rw [parseVendorWin, if_neg (by rw [h]; exact Bool.false_ne_true)]
  · intro h
    rw [parseVendorWin, if_pos h]
  · intro h
    rw [parseVendorWin, claimedVendorWin]
    by_cases hocc : occursIn vidSep did = true
    · rw [if_pos hocc, if_pos hocc, takeToFirst_of_not_occurs vidSep _ h]
    · rw [if_neg hocc, if_neg hocc]
  · intro hd hd2
    constructor
    · intro h
      rw [h]
      exact ⟨rfl, rfl⟩
    · rintro ⟨hid, hv⟩
      obtain ⟨hs1, hu1, -⟩ := hfacts d hd
      obtain ⟨hs2, hu2, -⟩ := hfacts d2 hd2
      cases d
      cases d2
      simp only at hid hv hs1 hu1 hs2 hu2
      simp [hid, hv, hs1, hu1, hs2, hu2]

/-- Witness for `vendor_parse_amended`: the enumerated device with DeviceID
`"USB/VID_046D&PID_C52B"` carries serial and uuid `"Unknown"`, and its vendor
parse `"046D"` matches the between-VID_-and-& reading since `"VID_"` occurs
only once. -/
theorem vendor_parse_amended_check :
    (winScanDevice "USB/VID_046D&PID_C52B".toList).serial = "Unknown".toList
    ∧ parseVendorWin "USB/VID_046D&PID_C52B".toList
        = claimedVendorWin "USB/VID_046D&PID_C52B".toList :=
  ⟨((vendor_parse_amended ["USB/VID_046D&PID_C52B".toList]
      (winScanDevice "USB/VID_046D&PID_C52B".toList)
      (winScanDevice "USB/VID_046D&PID_C52B".toList)
      "USB/VID_046D&PID_C52B".toList).1 (by decide)).1,
   (vendor_parse_amended ["USB/VID_046D&PID_C52B".toList]
      (winScanDevice "USB/VID_046D&PID_C52B".toList)
      (winScanDevice "USB/VID_046D&PID_C52B".toList)
      "USB/VID_046D&PID_C52B".toList).2.2.2.1 (by decide)⟩
